import Mathlib

/-!
Verification development for the bsvdb ChainStore (chainstore crate) and the
synchronizer pipeline (cli crate).

The Rust sources are shallowly embedded:
* `src/chainstore/src/chain_store.rs` — `BlockValidity`, `BlockInfo`,
  `ChainState`, `BlockInfo::genesis_info` and the `u8` conversions.
* `src/chainstore/src/fdb_chain_store.rs` — the FoundationDB-backed actor:
  the tuple-codec wrappers (`encode_block_info` / `decode_block_info` etc.),
  `ensure_db_initialized`, `get_next_id`, `sub_block_info_by_hash`,
  `store_block_info` and `get_block_infos`.
* `src/cli/src/global.rs` — `sync_piped`.

Machine integers: every Rust `u64` is modelled as `Nat`; the `as i64` /
`as u64` / `as u8` casts that occur in the codec are modelled explicitly with
wrap-around arithmetic (`i64OfU64`, `u64OfI64`, `u8OfI64`).

External collaborators (the FoundationDB tuple layer `pack`/`unpack` and the
bitcoinsv byte codecs for `BlockHash` and `BlockHeader`) are not part of this
repository; they are modelled as faithful codecs: `pack`/`unpack` is identity
on element lists, and the hash/header byte conversions are an explicit
injective encoding with an exact partial inverse.  Block hashes are modelled
as natural numbers and the double-SHA256 of a header as an injective pairing
of the header fields (hash collisions are assumed away).

The per-request transactions of the actor are modelled as sequential state
passing: FoundationDB transactions read their own writes, and a transaction
that is dropped without commit (as happens when a spawned task panics)
leaves the database unchanged, which the model captures by returning an
error without a successor state.
-/

set_option autoImplicit false

namespace Bsvdb

/-- The modulus of Rust's `u64`. -/
def U64MOD : Nat := 2 ^ 64

/-- Rust `u64 as i64` (two's-complement reinterpretation of a `u64` value). -/
def i64OfU64 (n : Nat) : Int :=
  if n % U64MOD < 2 ^ 63 then (n % U64MOD : Int) else (n % U64MOD : Int) - U64MOD

/-- Rust `i64 as u64` (two's-complement reinterpretation of an `i64` value). -/
def u64OfI64 (i : Int) : Nat :=
  (i % (U64MOD : Int)).toNat

/-- Rust `i64 as u8` (truncation to the low byte). -/
def u8OfI64 (i : Int) : Nat :=
  (i % (256 : Int)).toNat

/-- Type `BlockchainId` from the bitcoinsv crate (external); only the four
variants used by `chain_store.rs` matter. -/
inductive BlockchainId where
  | Main
  | Test
  | Stn
  | Regtest
  deriving DecidableEq, Repr

/-- A block hash (`BlockHash` in bitcoinsv, external): 32 raw bytes, modelled
as a natural number. -/
abbrev BlockHash : Type := Nat

/-- An 80-byte block header (`BlockHeader` in bitcoinsv, external): version,
previous-hash, merkle-root, timestamp, bits, nonce. -/
structure BlockHeader where
  version : Nat
  prev_hash : BlockHash
  merkle_root : Nat
  timestamp : Nat
  bits : Nat
  nonce : Nat
  deriving DecidableEq, Repr

/-- The double-SHA256 of a header (external), modelled as an injective
pairing of the header fields: distinct headers have distinct hashes. -/
def BlockHeader.hash (h : BlockHeader) : BlockHash :=
  Nat.pair h.version (Nat.pair h.prev_hash (Nat.pair h.merkle_root
    (Nat.pair h.timestamp (Nat.pair h.bits h.nonce))))

/-- Modelled from the spec: `BlockHeader::get_genesis` of the bitcoinsv crate
(external to this repository).  The claims depend only on there being one
fixed genesis header per chain, with `prev_hash` outside the chain; the field
values are representative. -/
def BlockHeader.get_genesis (chain : BlockchainId) : BlockHeader :=
  { version := 1
    prev_hash := 0
    merkle_root :=
      match chain with
      | .Main => 10
      | .Test => 11
      | .Stn => 12
      | .Regtest => 13
    timestamp := 2
    bits := 3
    nonce := 4 }

/-- Enum `BlockValidity` from `chain_store.rs` (lines 94–109). -/
inductive BlockValidity where
  | Unknown
  | Valid
  | ValidHeader
  | Invalid
  | HeaderInvalid
  | InvalidAncestor
  deriving DecidableEq, Repr

/-- Conversion `impl From<u8> for BlockValidity` (`chain_store.rs` lines 146–162); the
byte is modelled as a `Nat` below 256. -/
def BlockValidity.fromU8 (value : Nat) : BlockValidity :=
  if value = 1 then .Valid
  else if value = 2 then .ValidHeader
  else if value = 3 then .Invalid
  else if value = 4 then .HeaderInvalid
  else if value = 5 then .InvalidAncestor
  else .Unknown

/-- Conversion `impl From<BlockValidity> for u8` (`chain_store.rs` lines 164–175). -/
def BlockValidity.toU8 : BlockValidity → Nat
  | .Unknown => 0
  | .Valid => 1
  | .ValidHeader => 2
  | .Invalid => 3
  | .HeaderInvalid => 4
  | .InvalidAncestor => 5

/-- Record `BlockInfo<u64>` from `chain_store.rs` (lines 113–129); `chain_work` is a
byte string, modelled as a list of bytes. -/
structure BlockInfo where
  id : Nat
  hash : BlockHash
  header : BlockHeader
  height : Nat
  prev_id : Nat
  next_ids : List Nat
  size : Option Nat
  num_tx : Option Nat
  median_time : Option Nat
  chain_work : Option (List Nat)
  total_tx : Option Nat
  total_size : Option Nat
  miner : Option String
  validity : BlockValidity
  deriving DecidableEq, Repr

/-- Record `ChainState<u64>` from `chain_store.rs` (lines 132–144). -/
structure ChainState where
  most_work_tip : Nat
  active_tips : List Nat
  dormant_tips : List Nat
  invalid_tips : List Nat
  deriving DecidableEq, Repr

/-- Constructor `BlockInfo::genesis_info` from `chain_store.rs` (lines 177–220), with the
two hex `chain_work` constants written out as byte lists. -/
def BlockInfo.genesis_info (block_chain : BlockchainId) : BlockInfo :=
  let g_hdr := BlockHeader.get_genesis block_chain
  let info : BlockInfo :=
    { id := 0
      hash := g_hdr.hash
      header := g_hdr
      height := 0
      prev_id := 0
      next_ids := []
      size := some 285
      num_tx := some 1
      median_time := some 1231006505
      chain_work := some (List.replicate 27 0 ++ [1, 0, 1, 0, 1])
      total_tx := some 1
      total_size := some 285
      miner := some "Satoshi Nakamoto"
      validity := .Valid }
  match block_chain with
  | .Main => info
  | .Test => { info with median_time := some 1296688602 }
  | .Stn => { info with median_time := some 1296688602 }
  | .Regtest =>
      { info with
          median_time := some 1296688602
          chain_work := some (List.replicate 31 0 ++ [2]) }

/-! ## The key-value store model

One FoundationDB key range per directory, modelled as an association list
with overwrite-on-set semantics.  Values are held in decoded form; the
encode/decode wrappers of `fdb_chain_store.rs` are modelled separately below
and related to the records by the codec round-trip theorem. -/

/-- Point lookup in an association list (FoundationDB `trx.get`). -/
def alookup {α : Type} : List (Nat × α) → Nat → Option α
  | [], _ => none
  | (k, v) :: t, k' => if k' = k then some v else alookup t k'

/-- Point write in an association list (FoundationDB `trx.set`): overwrites
the existing entry for the key or appends a new one. -/
def aset {α : Type} : List (Nat × α) → Nat → α → List (Nat × α)
  | [], k, v => [(k, v)]
  | (k0, v0) :: t, k, v => if k = k0 then (k, v) :: t else (k0, v0) :: aset t k v

theorem alookup_aset_self {α : Type} (l : List (Nat × α)) (k : Nat) (v : α) :
    alookup (aset l k v) k = some v := by
  induction l with
  | nil => simp [aset, alookup]
  | cons h t ih =>
    obtain ⟨k0, v0⟩ := h
    by_cases hk : k = k0
    · simp [aset, hk, alookup]
    · simp only [aset, if_neg hk, alookup]
      exact ih

theorem alookup_aset_ne {α : Type} (l : List (Nat × α)) (k k' : Nat) (v : α)
    (h : k' ≠ k) : alookup (aset l k v) k' = alookup l k' := by
  induction l with
  | nil => simp [aset, alookup, h]
  | cons hd t ih =>
    obtain ⟨k0, v0⟩ := hd
    by_cases hk : k = k0
    · subst hk
      simp [aset, alookup, h]
    · simp only [aset, if_neg hk, alookup]
      by_cases hk' : k' = k0
      · simp [hk']
      · simp [hk', ih]

/-- The contents of the ChainStore's FoundationDB key space: the `STATE_KEY`
and `NEXT_ID_KEY` singleton keys under `chain_dir`, the `infos` directory
(`BlockId → BlockInfo`) and the `hindex` directory (`BlockHash → BlockId`).
An absent optional key models a key that has never been written. -/
structure ChainStoreState where
  stateKey : Option ChainState
  nextIdKey : Option Nat
  infos : List (Nat × BlockInfo)
  hIndex : List (Nat × Nat)
  deriving DecidableEq, Repr

/-- The empty key space: a freshly created set of directories. -/
def emptyChainStoreState : ChainStoreState :=
  { stateKey := none, nextIdKey := none, infos := [], hIndex := [] }

/-- Function `FDBChainStoreActor::ensure_db_initialized` (`fdb_chain_store.rs` lines
278–315): if `STATE_KEY` is absent, write the initial `ChainState`, set
`NEXT_ID_KEY` to 1, store the genesis `BlockInfo` at id 0 and the genesis
hash→0 index entry, and commit; otherwise cancel the transaction (no
writes). -/
def ensure_db_initialized (chain : BlockchainId) (st : ChainStoreState) :
    ChainStoreState :=
  if st.stateKey = none then
    let gbi := BlockInfo.genesis_info chain
    { stateKey := some
        { most_work_tip := 0, active_tips := [0], dormant_tips := [], invalid_tips := [] }
      nextIdKey := some 1
      infos := aset st.infos 0 gbi
      hIndex := aset st.hIndex gbi.hash 0 }
  else st

/-- How a `store_block_info` request can fail in `fdb_chain_store.rs`: the
spawned task panics (`expect` on a missing `NEXT_ID_KEY`, or the literal
`panic!("parent not found")` at line 679).  `parentNotFound` stands for the
`Error::ParentNotFound` value of `result.rs`; the fdb code path never
produces it (the `return Err(..)` at line 680 is commented out). -/
inductive StoreFailure where
  | panicked (msg : String)
  | parentNotFound
  deriving DecidableEq, Repr

/-- Function `FDBChainStoreActor::get_next_id` (`fdb_chain_store.rs` lines 497–510):
read `NEXT_ID_KEY`, return its value and write back the successor.  The
double `unwrap` on the read is modelled as `none`. -/
def get_next_id (st : ChainStoreState) : Option (ChainStoreState × Nat) :=
  match st.nextIdKey with
  | none => none
  | some id => some ({ st with nextIdKey := some (id + 1) }, id)

/-- Function `FDBChainStoreActor::get_block_id_from_hash` (`fdb_chain_store.rs` lines
483–495): hash-index lookup. -/
def get_block_id_from_hash (st : ChainStoreState) (block_hash : BlockHash) :
    Option Nat :=
  alookup st.hIndex block_hash

/-- Function `FDBChainStoreActor::sub_block_info_by_hash` (`fdb_chain_store.rs` lines
552–569): resolve the hash through the index, then fetch the record; a
missing record behind a present index entry yields `none`, not an error. -/
def sub_block_info_by_hash (st : ChainStoreState) (hash : BlockHash) :
    Option BlockInfo :=
  match get_block_id_from_hash st hash with
  | none => none
  | some id => alookup st.infos id

/-- The validity-propagation `match` inside
`FDBChainStoreActor::store_block_info` (`fdb_chain_store.rs` lines 701–714),
as a function of the parent's validity and the candidate's validity. -/
def propagate_validity (parent : BlockValidity) (candidate : BlockValidity) :
    BlockValidity :=
  match parent with
  | .Unknown => .Unknown
  | .Valid => candidate
  | .ValidHeader => if candidate = .Valid then .ValidHeader else candidate
  | .Invalid => .InvalidAncestor
  | .HeaderInvalid => .InvalidAncestor
  | .InvalidAncestor => .InvalidAncestor

/-- The first step of `FDBChainStoreActor::store_block_info`
(`fdb_chain_store.rs` lines 651–669): look the hash up in the index and
adopt the id found there, or allocate the next id and write the hash→id
entry. -/
def store_assign_id (st : ChainStoreState) (block_info : BlockInfo) :
    Except StoreFailure (ChainStoreState × BlockInfo) :=
  match get_block_id_from_hash st block_info.hash with
  | none =>
    match get_next_id st with
    | none => .error (.panicked "couldnt get next_id")
    | some (st1, id) =>
      .ok ({ st1 with hIndex := aset st1.hIndex block_info.hash id },
           { block_info with id := id })
  | some id => .ok (st, { block_info with id := id })

/-- Function `FDBChainStoreActor::store_block_info` (`fdb_chain_store.rs` lines
640–728), one transaction: assign the id; find the parent via
`header.prev_hash` (a missing parent hits `panic!("parent not found")`, so
the transaction is dropped uncommitted and no state change survives); append
the child to the parent's `next_ids` when absent and rewrite the parent;
recompute `total_size`/`total_tx` when both inputs are present; set
`height`, `prev_id` and the propagated validity; write the record; commit.
The `update the chain state if necessary - IAMHERE` stub at line 721 does
nothing, so `stateKey` is never touched. -/
def store_block_info (st : ChainStoreState) (block_info : BlockInfo) :
    Except StoreFailure (ChainStoreState × BlockInfo) :=
  match store_assign_id st block_info with
  | .error e => .error e
  | .ok (st1, bi) =>
    match sub_block_info_by_hash st1 bi.header.prev_hash with
    | none => .error (.panicked "parent not found")
    | some parent =>
      let parent1 :=
        if bi.id ∈ parent.next_ids then parent
        else { parent with next_ids := parent.next_ids ++ [bi.id] }
      let st2 :=
        if bi.id ∈ parent.next_ids then st1
        else { st1 with infos := aset st1.infos parent.id parent1 }
      let bi1 :=
        { bi with
            total_size :=
              match parent.total_size, bi.size with
              | some pts, some s => some (pts + s)
              | _, _ => bi.total_size
            total_tx :=
              match parent.total_tx, bi.num_tx with
              | some ptt, some n => some (ptt + n)
              | _, _ => bi.total_tx }
      let bi2 :=
        { bi1 with
            height := parent.height + 1
            prev_id := parent.id
            validity := propagate_validity parent.validity bi1.validity }
      .ok ({ st2 with infos := aset st2.infos bi2.id bi2 }, bi2)

/-! ## The ancestor stream -/

/-- The loop of `FDBChainStoreActor::get_block_infos` (`fdb_chain_store.rs`
lines 594–638).  The loop counts deliveries in `x` and stops after a
delivery once `x >= num_blocks` or the delivered height is 0, or as soon as
a record is missing.  `fuel` is the number of deliveries still allowed at
loop entry (`num_blocks - x`, at least 1 because the bound is only checked
after a delivery); `fuel = 0` inside a step therefore means "this was the
last permitted delivery".  The `transaction too old` retry (error code 1007)
only restarts a read and is invisible to the pure model. -/
def get_block_infos_go (infos : List (Nat × BlockInfo)) : Nat → Nat → List BlockInfo
  | _, 0 => []
  | id, fuel + 1 =>
    match alookup infos id with
    | none => []
    | some b_info =>
      if fuel = 0 || b_info.height = 0 then [b_info]
      else b_info :: get_block_infos_go infos b_info.prev_id fuel

/-- Function `FDBChainStoreActor::get_block_infos`: `num_blocks` is
`max_blocks.unwrap_or(u64::MAX)`; the post-delivery check `x >= num_blocks`
makes `max_blocks = Some 0` behave like `Some 1`, whence the `max · 1`. -/
def get_block_infos (st : ChainStoreState) (db_id : Nat) (max_blocks : Option Nat) :
    List BlockInfo :=
  get_block_infos_go st.infos db_id (Nat.max (max_blocks.getD (U64MOD - 1)) 1)

/-- The ancestor walk as the spec words it: walk `prev_id` pointers from the
start id and terminate exactly when `fuel` items have been delivered, when a
record with height 0 has been delivered, or when a record is missing. -/
def spec_ancestor_walk (infos : List (Nat × BlockInfo)) : Nat → Nat → List BlockInfo
  | _, 0 => []
  | id, fuel + 1 =>
    match alookup infos id with
    | none => []
    | some b_info =>
      if b_info.height = 0 then [b_info]
      else b_info :: spec_ancestor_walk infos b_info.prev_id fuel

/-- The spec's reading of `get_block_infos`: at most `max_blocks` items
(all items up to genesis when absent). -/
def spec_get_block_infos (st : ChainStoreState) (db_id : Nat)
    (max_blocks : Option Nat) : List BlockInfo :=
  spec_ancestor_walk st.infos db_id (max_blocks.getD (U64MOD - 1))

/-! ## The tuple codec

`fdb_chain_store.rs` lines 323–480.  `Element` is the value enum of the
FoundationDB tuple layer (external crate); `pack`/`unpack` — an exact,
order-preserving byte codec for element lists — is modelled as the identity
on element lists, so the encode/decode wrappers below work on `List Element`
directly.  `as_i64`, `as_bytes`, `as_str` and `as_tuple` are the crate's
accessors, returning `none` on a variant mismatch; the source `unwrap`s them
where a mismatch would be a panic, which the model folds into `none`. -/

inductive Element where
  | int (i : Int)
  | bytes (b : List Nat)
  | str (s : String)
  | tuple (l : List Element)
  | nil
  deriving Repr

def Element.as_i64 : Element → Option Int
  | .int i => some i
  | _ => none

def Element.as_bytes : Element → Option (List Nat)
  | .bytes b => some b
  | _ => none

def Element.as_str : Element → Option String
  | .str s => some s
  | _ => none

def Element.as_tuple : Element → Option (List Element)
  | .tuple l => some l
  | _ => none

/-- Unpacking directly into a `u64` (used for `most_work_tip` and the
`next_id` / hash-index values): exact for the whole `u64` range, failing
outside it. -/
def decodeU64Exact (e : Element) : Option Nat :=
  match e with
  | .int (Int.ofNat k) => if k < U64MOD then some k else none
  | _ => none

/-- The bitcoinsv `BlockHash` byte serialization (external), modelled as a
faithful codec. -/
def hashToBytes (h : BlockHash) : List Nat := [h]

/-- Exact partial inverse of `hashToBytes` (`BlockHash::from(&[u8])`). -/
def hashFromBytes : List Nat → Option BlockHash
  | [h] => some h
  | _ => none

/-- The bitcoinsv `BlockHeader::to_binary_buf` (external), modelled as a
faithful codec. -/
def headerToBytes (h : BlockHeader) : List Nat :=
  [h.version, h.prev_hash, h.merkle_root, h.timestamp, h.bits, h.nonce]

/-- Exact partial inverse of `headerToBytes`
(`BlockHeader::from_binary_buf`). -/
def headerFromBytes : List Nat → Option BlockHeader
  | [v, p, m, t, b, n] =>
    some { version := v, prev_hash := p, merkle_root := m,
           timestamp := t, bits := b, nonce := n }
  | _ => none

/-- The mapping `iter().map(|j| j.as_i64().unwrap() as u64).collect()`: decode a tuple
of integers into `u64` values, failing on any non-integer element. -/
def decodeI64U64List : List Element → Option (List Nat)
  | [] => some []
  | e :: t =>
    match e.as_i64.map u64OfI64, decodeI64U64List t with
    | some v, some vs => some (v :: vs)
    | _, _ => none

/-- An optional `u64` attribute encoded as `Element::Int(j as i64)` when
present and `Element::Nil` when absent. -/
def optIntElement (o : Option Nat) : Element :=
  match o with
  | some j => .int (i64OfU64 j)
  | none => .nil

/-- An optional byte string encoded as `Element::Bytes` when present and
`Element::Nil` when absent (`chain_work`). -/
def optBytesElement (o : Option (List Nat)) : Element :=
  match o with
  | some j => .bytes j
  | none => .nil

/-- An optional string encoded as `Element::String` when present and
`Element::Nil` when absent (`miner`). -/
def optStrElement (o : Option String) : Element :=
  match o with
  | some k => .str k
  | none => .nil

/-- Function `FDBChainStoreActor::encode_block_info` (`fdb_chain_store.rs` lines
422–464): the 14-element tuple, with every `u64` cast `as i64`. -/
def encode_block_info (v : BlockInfo) : List Element :=
  [ .int (i64OfU64 v.id),
    .bytes (hashToBytes v.hash),
    .bytes (headerToBytes v.header),
    .int (i64OfU64 v.height),
    .int (i64OfU64 v.prev_id),
    .tuple (v.next_ids.map (fun i => Element.int (i64OfU64 i))),
    optIntElement v.size,
    optIntElement v.num_tx,
    optIntElement v.median_time,
    optBytesElement v.chain_work,
    optIntElement v.total_tx,
    optIntElement v.total_size,
    optStrElement v.miner,
    .int (v.validity.toU8 : Int) ]

/-- Function `FDBChainStoreActor::decode_block_info` (`fdb_chain_store.rs` lines
391–419): index the unpacked element vector at positions 0–13 (panicking on
a shorter vector, ignoring extra elements), `unwrap` the mandatory fields
and `Option::map` the optional ones. -/
def decode_block_info (i : List Element) : Option BlockInfo :=
  match i with
  | e0 :: e1 :: e2 :: e3 :: e4 :: e5 :: e6 :: e7 :: e8 :: e9 :: e10 :: e11 :: e12 :: e13 :: _ =>
    match e0.as_i64, e1.as_bytes, e2.as_bytes, e3.as_i64, e4.as_i64, e5.as_tuple, e13.as_i64 with
    | some i0, some hb, some hdb, some i3, some i4, some nt, some i13 =>
      match hashFromBytes hb, headerFromBytes hdb, decodeI64U64List nt with
      | some hash, some header, some next_ids =>
        some { id := u64OfI64 i0
               hash := hash
               header := header
               height := u64OfI64 i3
               prev_id := u64OfI64 i4
               next_ids := next_ids
               size := e6.as_i64.map u64OfI64
               num_tx := e7.as_i64.map u64OfI64
               median_time := e8.as_i64.map u64OfI64
               chain_work := e9.as_bytes
               total_tx := e10.as_i64.map u64OfI64
               total_size := e11.as_i64.map u64OfI64
               miner := e12.as_str
               validity := BlockValidity.fromU8 (u8OfI64 i13) }
      | _, _, _ => none
    | _, _, _, _, _, _, _ => none
  | _ => none

/-- A `u64` packed exactly by the tuple layer (no cast). -/
def intElementOfU64 (i : Nat) : Element := .int (Int.ofNat i)

/-- Function `FDBChainStoreActor::encode_chain_state` (`fdb_chain_store.rs` lines
355–364): `(most_work_tip, active, dormant, invalid)` with the `u64` values
packed exactly (no cast) and each tip vector as a nested tuple. -/
def encode_chain_state (cs : ChainState) : List Element :=
  [ intElementOfU64 cs.most_work_tip,
    .tuple (cs.active_tips.map intElementOfU64),
    .tuple (cs.dormant_tips.map intElementOfU64),
    .tuple (cs.invalid_tips.map intElementOfU64) ]

/-- Function `FDBChainStoreActor::decode_chain_state` (`fdb_chain_store.rs` lines
323–352): unpack `(u64, Element, Element, Element)` and read each tip list
through `as_tuple` / `as_i64` / `as u64`. -/
def decode_chain_state (v : List Element) : Option ChainState :=
  match v with
  | [a, b, c, d] =>
    match decodeU64Exact a, b.as_tuple, c.as_tuple, d.as_tuple with
    | some mwt, some a_t, some d_t, some i_t =>
      match decodeI64U64List a_t, decodeI64U64List d_t, decodeI64U64List i_t with
      | some active, some dormant, some invalid =>
        some { most_work_tip := mwt, active_tips := active,
               dormant_tips := dormant, invalid_tips := invalid }
      | _, _, _ => none
    | _, _, _, _ => none
  | _ => none

/-- Function `FDBChainStoreActor::encode_next_id` (`fdb_chain_store.rs` lines
378–380): a singleton tuple holding the `u64`. -/
def encode_next_id (v : Nat) : List Element := [intElementOfU64 v]

/-- Function `FDBChainStoreActor::decode_next_id` (`fdb_chain_store.rs` lines
372–375). -/
def decode_next_id (v : List Element) : Option Nat :=
  match v with
  | [e] => decodeU64Exact e
  | _ => none

/-- Function `FDBChainStoreActor::encode_h_index` (`fdb_chain_store.rs` lines
478–480). -/
def encode_h_index (v : Nat) : List Element := [intElementOfU64 v]

/-- Function `FDBChainStoreActor::decode_h_index` (`fdb_chain_store.rs` lines
472–475). -/
def decode_h_index (v : List Element) : Option Nat :=
  match v with
  | [e] => decodeU64Exact e
  | _ => none

/-- All numeric fields of a `BlockInfo` fit in a `u64`, as Rust's types
guarantee for the real record. -/
def BlockInfo.u64Bounded (b : BlockInfo) : Bool :=
  decide (b.id < U64MOD) && decide (b.height < U64MOD) && decide (b.prev_id < U64MOD) &&
  b.next_ids.all (fun i => decide (i < U64MOD)) &&
  b.size.getD 0 < U64MOD && b.num_tx.getD 0 < U64MOD && b.median_time.getD 0 < U64MOD &&
  b.total_tx.getD 0 < U64MOD && b.total_size.getD 0 < U64MOD

/-- All tip ids of a `ChainState` fit in a `u64`. -/
def ChainState.u64Bounded (cs : ChainState) : Bool :=
  decide (cs.most_work_tip < U64MOD) &&
  cs.active_tips.all (fun i => decide (i < U64MOD)) &&
  cs.dormant_tips.all (fun i => decide (i < U64MOD)) &&
  cs.invalid_tips.all (fun i => decide (i < U64MOD))

/-! ## The synchronizer -/

/-- The store-visible effect of `sync_piped` (`src/cli/src/global.rs` lines
114–301) as the source stands: opening the `FDBChainStore` runs
`ensure_db_initialized`, after which the only live stage (stage 1 plus the
receive loop) performs one `get_block_info_by_hash` read per archive hash
and discards the result — stages 2–4 and the topological drain are
commented out, so nothing is ever stored. -/
def sync_piped (chain : BlockchainId) (st : ChainStoreState)
    (archive : List BlockHash) : ChainStoreState :=
  archive.foldl (fun s _ => s) (ensure_db_initialized chain st)

/-- Modelled from the spec (stage 2 output; the candidate built by the
commented-out drain in `global.rs`): a partial `BlockInfo` for an archive
header, every derived field left for `store_block_info` to fill in. -/
def mkDrainInfo (hdr : BlockHeader) : BlockInfo :=
  { id := 0
    hash := hdr.hash
    header := hdr
    height := 0
    prev_id := 0
    next_ids := []
    size := none
    num_tx := none
    median_time := none
    chain_work := none
    total_tx := none
    total_size := none
    miner := none
    validity := .Unknown }

/-- Removing a key from an association list (`BTreeMap::remove`). -/
def aremove {α : Type} : List (Nat × α) → Nat → List (Nat × α)
  | [], _ => []
  | (k0, v0) :: t, k => if k = k0 then t else (k0, v0) :: aremove t k

/-- Modelled from the spec: the topological drain of §4.6 (present in the
source only as commented-out code in `global.rs`): repeatedly pop a hash
from `known_parents`; for each child of that hash, `store_block_info` the
child's partial record and add the returned hash to `known_parents`; then
drop the parent's entry from `children`.  `fuel` bounds the iteration. -/
def spec_drain (headers : List (Nat × BlockHeader)) :
    List (Nat × List Nat) → List Nat → ChainStoreState → Nat → ChainStoreState
  | _children, _known, st, 0 => st
  | children, known, st, fuel + 1 =>
    match known with
    | [] => st
    | p :: rest =>
      match alookup children p with
      | none => spec_drain headers children rest st fuel
      | some cs =>
        let step := cs.foldl
          (fun (acc : ChainStoreState × List Nat) c =>
            match alookup headers c with
            | none => acc
            | some hdr =>
              match store_block_info acc.1 (mkDrainInfo hdr) with
              | .ok (st2, bi2) => (st2, acc.2 ++ [bi2.hash])
              | .error _ => acc)
          (st, rest)
        spec_drain headers (aremove children p) step.2 step.1 fuel

/-- Modelled from the spec: the full synchronizer pipeline of §4.6 (stages
1–5 feed the accumulator; the drain then inserts in topological order).  The
archive is presented as the headers of its blocks; stage 1/2 keep the
headers missing from the store, stage 4/5 build the `children` map and seed
`known_parents` with the parents already present in the store. -/
def spec_sync_piped (chain : BlockchainId) (st0 : ChainStoreState)
    (archive : List BlockHeader) : ChainStoreState :=
  let st := ensure_db_initialized chain st0
  let missing := archive.filter (fun hdr => (sub_block_info_by_hash st hdr.hash).isNone)
  let headers := missing.map (fun hdr => (hdr.hash, hdr))
  let children := missing.foldl
    (fun m hdr =>
      match alookup m hdr.prev_hash with
      | none => aset m hdr.prev_hash [hdr.hash]
      | some v => aset m hdr.prev_hash (v ++ [hdr.hash]))
    []
  let known :=
    ((missing.filter (fun hdr => (sub_block_info_by_hash st hdr.prev_hash).isSome)).map
      (fun hdr => hdr.prev_hash)).dedup
  spec_drain headers children known st ((archive.length + 1) * (archive.length + 1) + 1)

/-! ## Concrete fixtures

A freshly opened mainnet store and a handful of candidate blocks, used by
the counterexamples and witnesses below. -/

/-- A mainnet store right after `ensure_db_initialized` on an empty root. -/
def initMainState : ChainStoreState :=
  ensure_db_initialized .Main emptyChainStoreState

/-- A header whose parent is the mainnet genesis block. -/
def hdrB1 : BlockHeader :=
  { version := 1, prev_hash := (BlockInfo.genesis_info .Main).hash,
    merkle_root := 100, timestamp := 5, bits := 6, nonce := 7 }

/-- A height-1 candidate as in the spec's scenario 2: `size=215, num_tx=1,
validity=Valid`, the id/height/prev_id fields left for the store to fill. -/
def candB1 : BlockInfo :=
  { id := 0, hash := hdrB1.hash, header := hdrB1, height := 0, prev_id := 15,
    next_ids := [], size := some 215, num_tx := some 1,
    median_time := some 1231469665, chain_work := none, total_tx := none,
    total_size := none, miner := none, validity := .Valid }

/-- The mid-transaction state after `store_assign_id initMainState candB1`:
id 1 allocated and the hash→1 index entry written. -/
def st1B1 : ChainStoreState :=
  { initMainState with
      nextIdKey := some 2
      hIndex := aset initMainState.hIndex candB1.hash 1 }

/-- Candidate `candB1` with the allocated id. -/
def biB1 : BlockInfo := { candB1 with id := 1 }

/-- A header whose `prev_hash` matches nothing in a fresh store. -/
def hdrOrphan : BlockHeader :=
  { version := 1, prev_hash := 999999, merkle_root := 55, timestamp := 5,
    bits := 6, nonce := 7 }

/-- A candidate block with an unknown parent. -/
def candOrphan : BlockInfo :=
  { id := 0, hash := hdrOrphan.hash, header := hdrOrphan, height := 0,
    prev_id := 0, next_ids := [], size := some 100, num_tx := some 1,
    median_time := none, chain_work := none, total_tx := none,
    total_size := none, miner := none, validity := .Valid }

/-- A child of genesis submitted with `size` absent but `total_size`
already set to 42 by the caller. -/
def candTS : BlockInfo :=
  { id := 0, hash := hdrB1.hash, header := hdrB1, height := 0, prev_id := 0,
    next_ids := [], size := none, num_tx := some 1, median_time := none,
    chain_work := none, total_tx := none, total_size := some 42,
    miner := none, validity := .Valid }

/-- Record `i` of a 101-block chain: height `i`, linked by `prev_id`. -/
def mkChainInfo (i : Nat) : BlockInfo :=
  { id := i, hash := 1000 + i,
    header := { version := 1, prev_hash := if i = 0 then 0 else 999 + i,
                merkle_root := i, timestamp := 0, bits := 0, nonce := 0 },
    height := i, prev_id := i - 1, next_ids := if i < 100 then [i + 1] else [],
    size := none, num_tx := none, median_time := none, chain_work := none,
    total_tx := none, total_size := none, miner := none, validity := .Valid }

/-- A store holding a genesis block and 100 descendants (ids 0–100). -/
def chain100State : ChainStoreState :=
  { stateKey := some { most_work_tip := 100, active_tips := [100],
                       dormant_tips := [], invalid_tips := [] }
    nextIdKey := some 101
    infos := (List.range 101).map (fun i => (i, mkChainInfo i))
    hIndex := (List.range 101).map (fun i => (1000 + i, i)) }

/-! ## Helper lemmas -/

/-- What `store_assign_id` does when it succeeds: only the id field of the
candidate changes, only the `NEXT_ID_KEY` and the candidate's own hash-index
entry of the state change, and afterwards the index maps the candidate's
hash to the assigned id. -/
theorem store_assign_id_fields (st st1 : ChainStoreState) (bi0 bi : BlockInfo)
    (h : store_assign_id st bi0 = .ok (st1, bi)) :
    bi = { bi0 with id := bi.id } ∧
    st1.infos = st.infos ∧
    st1.stateKey = st.stateKey ∧
    alookup st1.hIndex bi0.hash = some bi.id ∧
    (∀ x, x ≠ bi0.hash → alookup st1.hIndex x = alookup st.hIndex x) := by
  unfold store_assign_id at h
  cases hl : get_block_id_from_hash st bi0.hash with
  | none =>
    rw [hl] at h
    cases hn : get_next_id st with
    | none => rw [hn] at h; exact absurd h (by simp)
    | some p =>
      obtain ⟨sta, id⟩ := p
      rw [hn] at h
      simp only [Except.ok.injEq, Prod.mk.injEq] at h
      obtain ⟨hst, hbi⟩ := h
      unfold get_next_id at hn
      cases hk : st.nextIdKey with
      | none => rw [hk] at hn; exact absurd hn (by simp)
      | some nid =>
        rw [hk] at hn
        simp only [Option.some.injEq, Prod.mk.injEq] at hn
        obtain ⟨hsta, hid⟩ := hn
        subst hsta hid hst hbi
        refine ⟨rfl, rfl, rfl, ?_, ?_⟩
        · exact alookup_aset_self _ _ _
        · intro x hx
          exact alookup_aset_ne _ _ _ _ hx
  | some id =>
    rw [hl] at h
    simp only [Except.ok.injEq, Prod.mk.injEq] at h
    obtain ⟨hst, hbi⟩ := h
    subst hst hbi
    unfold get_block_id_from_hash at hl
    exact ⟨rfl, rfl, rfl, hl, fun x _ => rfl⟩

/-- The code's ancestor loop delivers the same sequence as the spec's walk
for every fuel value; the two top-level functions differ only in how
`max_blocks = Some 0` is turned into fuel. -/
theorem go_eq_walk (infos : List (Nat × BlockInfo)) :
    ∀ (fuel id : Nat),
      get_block_infos_go infos id fuel = spec_ancestor_walk infos id fuel := by
  intro fuel
  induction fuel with
  | zero => intro id; rfl
  | succ f ih =>
    intro id
    simp only [get_block_infos_go, spec_ancestor_walk]
    cases hl : alookup infos id with
    | none => rfl
    | some b =>
      by_cases hh : b.height = 0
      · simp [hh]
      · by_cases hf : f = 0
        · subst hf
          simp [hh, spec_ancestor_walk]
        · simp [hh, hf, ih]

/-- Casting `u64 as i64 as u64` is the identity on the `u64` range. -/
theorem u64_round (n : Nat) (h : n < U64MOD) : u64OfI64 (i64OfU64 n) = n := by
  unfold u64OfI64 i64OfU64 U64MOD at *
  split <;> omega

/-- Unpacking an exactly packed `u64` through `as_i64` / `as u64` is the
identity on the `u64` range. -/
theorem u64OfI64_coe (n : Nat) (h : n < U64MOD) : u64OfI64 (Int.ofNat n) = n := by
  unfold u64OfI64 U64MOD at *
  rw [Int.ofNat_eq_coe]
  omega

theorem optIntElement_round (o : Option Nat) (h : o.getD 0 < U64MOD) :
    (optIntElement o).as_i64.map u64OfI64 = o := by
  cases o with
  | none => rfl
  | some x =>
    show some (u64OfI64 (i64OfU64 x)) = some x
    rw [u64_round x (by simpa using h)]

/-- Round trip for a tuple of `u64` values passed through the `as i64`
cast. -/
theorem decodeI64U64List_round (l : List Nat) (h : ∀ i ∈ l, i < U64MOD) :
    decodeI64U64List (l.map (fun i => Element.int (i64OfU64 i))) = some l := by
  induction l with
  | nil => rfl
  | cons a t ih =>
    show (match Option.map u64OfI64 (some (i64OfU64 a)),
            decodeI64U64List (t.map (fun i => Element.int (i64OfU64 i))) with
          | some v, some vs => some (v :: vs)
          | _, _ => none) = some (a :: t)
    rw [Option.map_some', u64_round a (h a (List.mem_cons_self a t)),
        ih (fun i hi => h i (List.mem_cons_of_mem a hi))]

/-- Round trip for a tuple of exactly packed `u64` values. -/
theorem decodeI64U64List_coe_round (l : List Nat) (h : ∀ i ∈ l, i < U64MOD) :
    decodeI64U64List (l.map intElementOfU64) = some l := by
  induction l with
  | nil => rfl
  | cons a t ih =>
    show (match Option.map u64OfI64 (some (Int.ofNat a)),
            decodeI64U64List (t.map intElementOfU64) with
          | some v, some vs => some (v :: vs)
          | _, _ => none) = some (a :: t)
    rw [Option.map_some', u64OfI64_coe a (h a (List.mem_cons_self a t)),
        ih (fun i hi => h i (List.mem_cons_of_mem a hi))]

theorem headerBytes_round (h : BlockHeader) :
    headerFromBytes (headerToBytes h) = some h := rfl

theorem validity_byte_round (v : BlockValidity) :
    BlockValidity.fromU8 (u8OfI64 ((v.toU8 : Nat) : Int)) = v := by
  cases v <;> rfl

/-- The §4.3 propagation table exactly as claim C1 words it: `Unknown`
parents produce `Unknown`; `Valid` parents keep the candidate validity;
`ValidHeader` parents demote `Valid` to `ValidHeader` and keep any other
candidate validity; invalid parents of any flavour produce
`InvalidAncestor`. -/
def specValidityTable (p c : BlockValidity) : BlockValidity :=
  match p with
  | .Unknown => .Unknown
  | .Valid => c
  | .ValidHeader => if c = .Valid then .ValidHeader else c
  | .Invalid => .InvalidAncestor
  | .HeaderInvalid => .InvalidAncestor
  | .InvalidAncestor => .InvalidAncestor

theorem propagate_validity_eq_spec_table (p c : BlockValidity) :
    propagate_validity p c = specValidityTable p c := by
  cases p <;> cases c <;> rfl

/-- Full characterization of a successful `store_block_info` in terms of the
assigned candidate `bi` and the parent record found mid-transaction. -/
theorem store_block_info_ok (st st1 : ChainStoreState) (bi0 bi parent : BlockInfo)
    (h1 : store_assign_id st bi0 = .ok (st1, bi))
    (h2 : sub_block_info_by_hash st1 bi.header.prev_hash = some parent) :
    ∃ st' bi', store_block_info st bi0 = .ok (st', bi') ∧
      bi'.id = bi.id ∧
      bi'.hash = bi.hash ∧
      bi'.header = bi.header ∧
      bi'.height = parent.height + 1 ∧
      bi'.prev_id = parent.id ∧
      bi'.validity = propagate_validity parent.validity bi.validity ∧
      bi'.total_size = (match parent.total_size, bi.size with
        | some a, some b => some (a + b)
        | _, _ => bi.total_size) ∧
      bi'.total_tx = (match parent.total_tx, bi.num_tx with
        | some a, some b => some (a + b)
        | _, _ => bi.total_tx) ∧
      bi'.size = bi.size ∧
      bi'.num_tx = bi.num_tx ∧
      st'.stateKey = st1.stateKey ∧
      st'.hIndex = st1.hIndex ∧
      st'.infos = aset
        (if bi.id ∈ parent.next_ids then st1.infos
         else aset st1.infos parent.id
           { parent with next_ids := parent.next_ids ++ [bi.id] })
        bi.id bi' := by
  unfold store_block_info
  rw [h1]
  dsimp only
  rw [h2]
  dsimp only
  refine ⟨_, _, rfl, rfl, rfl, rfl, rfl, rfl, rfl, rfl, rfl, rfl, rfl, ?_, ?_, ?_⟩ <;>
    by_cases hmem : bi.id ∈ parent.next_ids <;> simp [hmem]

/-! ## Claim theorems -/

/-- Claim C1: for every parent validity and every candidate validity
submitted to `store_block_info`, the stored child's validity equals the
spec's propagation table — `Unknown` parents give `Unknown`, `Valid`
parents keep the candidate validity, `ValidHeader` parents demote `Valid`
to `ValidHeader` and keep other candidate validities, and `Invalid`,
`HeaderInvalid` or `InvalidAncestor` parents give `InvalidAncestor`. -/
theorem store_validity_follows_spec_table (st st1 : ChainStoreState)
    (bi0 bi parent : BlockInfo)
    (h1 : store_assign_id st bi0 = .ok (st1, bi))
    (h2 : sub_block_info_by_hash st1 bi.header.prev_hash = some parent) :
    ∃ st' bi', store_block_info st bi0 = .ok (st', bi') ∧
      bi'.validity = specValidityTable parent.validity bi0.validity := by
  obtain ⟨hbi, -, -, -, -⟩ := store_assign_id_fields st st1 bi0 bi h1
  obtain ⟨st', bi', heq, -, -, -, -, -, hval, -, -, -, -, -, -, -⟩ :=
    store_block_info_ok st st1 bi0 bi parent h1 h2
  refine ⟨st', bi', heq, ?_⟩
  rw [hval, propagate_validity_eq_spec_table]
  have hv : bi.validity = bi0.validity := by rw [hbi]
  rw [hv]

/-- Claim C1 witness: storing the scenario-2 block (validity `Valid`) on a
fresh mainnet store, whose genesis parent is `Valid`, keeps validity
`Valid`. -/
theorem store_validity_follows_spec_table_witness :
    ∃ st' bi', store_block_info initMainState candB1 = .ok (st', bi') ∧
      bi'.validity =
        specValidityTable (BlockInfo.genesis_info .Main).validity candB1.validity :=
  store_validity_follows_spec_table initMainState st1B1 candB1 biB1
    (BlockInfo.genesis_info .Main) (by rfl) (by rfl)

/-- Claim C10: the `BlockValidity` byte codec round-trips with the
enumerated values `Unknown↦0, Valid↦1, ValidHeader↦2, Invalid↦3,
HeaderInvalid↦4, InvalidAncestor↦5`, and every byte outside `1..=5` decodes
to `Unknown`, so decoding is total over all bytes. -/
theorem validity_u8_round_trip :
    (∀ v : BlockValidity, BlockValidity.fromU8 v.toU8 = v) ∧
    BlockValidity.toU8 .Unknown = 0 ∧
    BlockValidity.toU8 .Valid = 1 ∧
    BlockValidity.toU8 .ValidHeader = 2 ∧
    BlockValidity.toU8 .Invalid = 3 ∧
    BlockValidity.toU8 .HeaderInvalid = 4 ∧
    BlockValidity.toU8 .InvalidAncestor = 5 ∧
    (∀ n : Nat, n < 256 → ¬(1 ≤ n ∧ n ≤ 5) → BlockValidity.fromU8 n = .Unknown) := by
  refine ⟨?_, rfl, rfl, rfl, rfl, rfl, rfl, ?_⟩
  · intro v
    cases v <;> rfl
  · intro n _ hn
    unfold BlockValidity.fromU8
    split_ifs with h1 h2 h3 h4 h5 <;> first | rfl | exact absurd (by omega) hn

/-- Claim C10 witness at `Valid` and at the out-of-range byte 7. -/
theorem validity_u8_round_trip_witness :
    BlockValidity.fromU8 (BlockValidity.toU8 .Valid) = .Valid ∧
    BlockValidity.fromU8 7 = .Unknown :=
  ⟨validity_u8_round_trip.1 .Valid,
   validity_u8_round_trip.2.2.2.2.2.2.2 7 (by decide) (by decide)⟩

/-- Claim C7: opening on an empty root writes, in one transaction, the
initial `ChainState{most_work_tip=0, active_tips=[0], dormant=[],
invalid=[]}`, `NEXT_ID_KEY = 1`, the genesis record at id 0 with the
per-chain constants, and the genesis hash→0 mapping; with `STATE_KEY`
present nothing is written, so a second open is a no-op. -/
theorem ensure_db_initialized_spec (chain : BlockchainId) (st : ChainStoreState) :
    (st.stateKey = none →
      ensure_db_initialized chain st =
        { stateKey := some { most_work_tip := 0, active_tips := [0],
                             dormant_tips := [], invalid_tips := [] }
          nextIdKey := some 1
          infos := aset st.infos 0 (BlockInfo.genesis_info chain)
          hIndex := aset st.hIndex (BlockInfo.genesis_info chain).hash 0 }) ∧
    (st.stateKey ≠ none → ensure_db_initialized chain st = st) ∧
    ensure_db_initialized chain (ensure_db_initialized chain st) =
      ensure_db_initialized chain st ∧
    (BlockInfo.genesis_info chain).id = 0 ∧
    (BlockInfo.genesis_info chain).size = some 285 ∧
    (BlockInfo.genesis_info chain).num_tx = some 1 ∧
    (BlockInfo.genesis_info chain).total_tx = some 1 ∧
    (BlockInfo.genesis_info chain).total_size = some 285 ∧
    (BlockInfo.genesis_info chain).miner = some "Satoshi Nakamoto" ∧
    (BlockInfo.genesis_info chain).validity = .Valid ∧
    (BlockInfo.genesis_info chain).median_time =
      some (match chain with
            | .Main => 1231006505
            | _ => 1296688602) ∧
    (BlockInfo.genesis_info chain).chain_work =
      some (match chain with
            | .Regtest => List.replicate 31 0 ++ [2]
            | _ => List.replicate 27 0 ++ [1, 0, 1, 0, 1]) := by
  refine ⟨?_, ?_, ?_, ?_, ?_, ?_, ?_, ?_, ?_, ?_, ?_, ?_⟩
  · intro h
    simp [ensure_db_initialized, h]
  · intro h
    simp [ensure_db_initialized, h]
  · by_cases h : st.stateKey = none
    · simp [ensure_db_initialized, h]
    · simp [ensure_db_initialized, h]
  all_goals cases chain <;> rfl

/-- Claim C7 witness: opening an empty mainnet root produces exactly the
initialized state. -/
theorem ensure_db_initialized_spec_witness :
    ensure_db_initialized .Main emptyChainStoreState =
      { stateKey := some { most_work_tip := 0, active_tips := [0],
                           dormant_tips := [], invalid_tips := [] }
        nextIdKey := some 1
        infos := aset emptyChainStoreState.infos 0 (BlockInfo.genesis_info .Main)
        hIndex := aset emptyChainStoreState.hIndex
          (BlockInfo.genesis_info .Main).hash 0 } :=
  (ensure_db_initialized_spec .Main emptyChainStoreState).1 rfl

/-- Claim C3 (code bug): on a candidate whose `prev_hash` is unknown, the
fdb task hits `panic!("parent not found")` instead of returning the
`ParentNotFound` error value (`fdb_chain_store.rs` lines 678–681; the
`Err(ParentNotFound)` return is commented out); the transaction is dropped
uncommitted, so the store is indeed unchanged. -/
theorem store_missing_parent_panics :
    store_block_info initMainState candOrphan =
      .error (.panicked "parent not found") ∧
    StoreFailure.panicked "parent not found" ≠ StoreFailure.parentNotFound := by
  constructor
  · rfl
  · intro h
    exact StoreFailure.noConfusion h

/-- Claim C2 (code bug): a successful `store_block_info` commits without
touching `STATE_KEY` (the chain-state update is the `IAMHERE` stub), so
after inserting the scenario-2 block the stored `ChainState` still lists
only id 0 as a tip, while the freshly stored id 1 (a block with no
children) is in no tip set at all. -/
theorem store_block_info_chain_state_stale :
    (store_block_info initMainState candB1).toOption.map
        (fun p => (p.1.stateKey, p.2.id, (alookup p.1.infos 1).map (fun b => b.next_ids))) =
      some (some { most_work_tip := 0, active_tips := [0], dormant_tips := [],
                   invalid_tips := [] }, 1, some []) ∧
    (1 : Nat) ∉ [(0 : Nat)] := by
  exact ⟨rfl, by decide⟩

/-- Claim C4 (code bug): the live `sync_piped` only runs stage 1 (existence
checks) — stages 2–5 and the topological drain are commented out — so an
archive block whose parent is genesis is never stored, whereas the
spec-modelled pipeline stores it (at id 1). -/
theorem sync_piped_stores_nothing :
    alookup (sync_piped .Main emptyChainStoreState [hdrB1.hash]).hIndex hdrB1.hash
      = none ∧
    alookup (spec_sync_piped .Main emptyChainStoreState [hdrB1]).hIndex hdrB1.hash
      = some 1 := by
  exact ⟨rfl, rfl⟩

/-- Claim C5 counterexample: a candidate submitted with `size` absent but
`total_size = Some 42` is stored with `total_size = Some 42` — the code
keeps the submitted value instead of leaving the aggregate absent. -/
theorem store_total_size_not_absent :
    (store_block_info initMainState candTS).toOption.map (fun p => p.2.total_size) =
      some (some 42) ∧
    (some 42 : Option Nat) ≠ none := by
  exact ⟨rfl, by decide⟩

/-- Claim C5 as amended: height, `prev_id` and the parent's `next_ids` link
are as claimed, and `total_size`/`total_tx` are parent aggregate plus
candidate input when both are present — otherwise the candidate's submitted
value is kept (so they are absent only when the candidate's field was
absent). -/
theorem store_links_child_and_totals (st st1 : ChainStoreState)
    (bi0 bi parent : BlockInfo)
    (h1 : store_assign_id st bi0 = .ok (st1, bi))
    (h2 : alookup st1.hIndex bi.header.prev_hash = some parent.id)
    (h3 : alookup st1.infos parent.id = some parent)
    (h4 : bi.id ≠ parent.id) :
    ∃ st' bi', store_block_info st bi0 = .ok (st', bi') ∧
      bi'.height = parent.height + 1 ∧
      bi'.prev_id = parent.id ∧
      bi'.total_size = (match parent.total_size, bi0.size with
        | some a, some b => some (a + b)
        | _, _ => bi0.total_size) ∧
      bi'.total_tx = (match parent.total_tx, bi0.num_tx with
        | some a, some b => some (a + b)
        | _, _ => bi0.total_tx) ∧
      ∃ p', alookup st'.infos parent.id = some p' ∧ bi'.id ∈ p'.next_ids := by
  have hsub : sub_block_info_by_hash st1 bi.header.prev_hash = some parent := by
    unfold sub_block_info_by_hash get_block_id_from_hash
    rw [h2]
    exact h3
  obtain ⟨hbi, -, -, -, -⟩ := store_assign_id_fields st st1 bi0 bi h1
  obtain ⟨st', bi', heq, hid, -, -, hh, hp, -, hts, htt, -, -, -, -, hinf⟩ :=
    store_block_info_ok st st1 bi0 bi parent h1 hsub
  have hsz : bi.size = bi0.size := by rw [hbi]
  have hts0 : bi.total_size = bi0.total_size := by rw [hbi]
  have hnt : bi.num_tx = bi0.num_tx := by rw [hbi]
  have htt0 : bi.total_tx = bi0.total_tx := by rw [hbi]
  refine ⟨st', bi', heq, hh, hp, ?_, ?_, ?_⟩
  · rw [hts, hsz, hts0]
  · rw [htt, hnt, htt0]
  · rw [hinf]
    by_cases hmem : bi.id ∈ parent.next_ids
    · rw [if_pos hmem]
      refine ⟨parent, ?_, ?_⟩
      · rw [alookup_aset_ne _ _ _ _ (Ne.symm h4)]
        exact h3
      · rw [hid]
        exact hmem
    · rw [if_neg hmem]
      refine ⟨{ parent with next_ids := parent.next_ids ++ [bi.id] }, ?_, ?_⟩
      · rw [alookup_aset_ne _ _ _ _ (Ne.symm h4), alookup_aset_self]
      · rw [hid]
        simp

/-- Claim C5 witness: the scenario-2 insert on a fresh mainnet store. -/
theorem store_links_child_and_totals_witness :
    ∃ st' bi', store_block_info initMainState candB1 = .ok (st', bi') ∧
      bi'.height = (BlockInfo.genesis_info .Main).height + 1 ∧
      bi'.prev_id = (BlockInfo.genesis_info .Main).id ∧
      bi'.total_size = (match (BlockInfo.genesis_info .Main).total_size, candB1.size with
        | some a, some b => some (a + b)
        | _, _ => candB1.total_size) ∧
      bi'.total_tx = (match (BlockInfo.genesis_info .Main).total_tx, candB1.num_tx with
        | some a, some b => some (a + b)
        | _, _ => candB1.total_tx) ∧
      ∃ p', alookup st'.infos (BlockInfo.genesis_info .Main).id = some p' ∧
        bi'.id ∈ p'.next_ids :=
  store_links_child_and_totals initMainState st1B1 candB1 biB1
    (BlockInfo.genesis_info .Main) (by rfl) (by rfl) (by rfl) (by decide)

/-- Claim C6: storing a block and then storing a candidate with the same
hash returns the same id both times (the second call adopts the id found in
the hash index instead of allocating), and the parent's `next_ids` holds
that id exactly once — no duplicate is appended. -/
theorem store_same_hash_same_id_no_duplicate (st st1 : ChainStoreState)
    (bi0 bi c2 parent : BlockInfo)
    (h1 : store_assign_id st bi0 = .ok (st1, bi))
    (h2 : alookup st1.hIndex bi.header.prev_hash = some parent.id)
    (h3 : alookup st1.infos parent.id = some parent)
    (h4 : bi.id ≠ parent.id)
    (h5 : bi.id ∉ parent.next_ids)
    (h6 : c2.hash = bi0.hash)
    (h7 : c2.header.prev_hash = bi0.header.prev_hash) :
    ∃ st' bi' st'' bi'',
      store_block_info st bi0 = .ok (st', bi') ∧
      store_block_info st' c2 = .ok (st'', bi'') ∧
      bi''.id = bi'.id ∧
      ∃ p', alookup st''.infos parent.id = some p' ∧
        p'.next_ids.count bi'.id = 1 := by
  obtain ⟨hbi, -, -, hhx1, -⟩ := store_assign_id_fields st st1 bi0 bi h1
  have hprev : bi.header.prev_hash = bi0.header.prev_hash := by rw [hbi]
  have hsub : sub_block_info_by_hash st1 bi.header.prev_hash = some parent := by
    unfold sub_block_info_by_hash get_block_id_from_hash
    rw [h2]
    exact h3
  obtain ⟨st', bi', heq, hid, -, -, -, -, -, -, -, -, -, -, hhx, hinf⟩ :=
    store_block_info_ok st st1 bi0 bi parent h1 hsub
  have hinf' : st'.infos =
      aset (aset st1.infos parent.id
        { parent with next_ids := parent.next_ids ++ [bi.id] }) bi.id bi' := by
    rw [hinf, if_neg h5]
  have hlook : alookup st'.infos parent.id =
      some { parent with next_ids := parent.next_ids ++ [bi.id] } := by
    rw [hinf', alookup_aset_ne _ _ _ _ (Ne.symm h4), alookup_aset_self]
  have hassign2 : store_assign_id st' c2 = .ok (st', { c2 with id := bi.id }) := by
    unfold store_assign_id get_block_id_from_hash
    rw [hhx, h6, hhx1]
  have hsub2 : sub_block_info_by_hash st' c2.header.prev_hash =
      some { parent with next_ids := parent.next_ids ++ [bi.id] } := by
    unfold sub_block_info_by_hash get_block_id_from_hash
    rw [hhx, h7, ← hprev, h2]
    exact hlook
  obtain ⟨st'', bi'', heq2, hid2, -, -, -, -, -, -, -, -, -, -, -, hinf2⟩ :=
    store_block_info_ok st' st' c2 { c2 with id := bi.id }
      { parent with next_ids := parent.next_ids ++ [bi.id] } hassign2 hsub2
  have hmem2 : ({ c2 with id := bi.id } : BlockInfo).id ∈
      ({ parent with next_ids := parent.next_ids ++ [bi.id] } : BlockInfo).next_ids := by
    show bi.id ∈ parent.next_ids ++ [bi.id]
    simp
  have hinf2' : st''.infos = aset st'.infos bi.id bi'' := by
    rw [hinf2, if_pos hmem2]
  refine ⟨st', bi', st'', bi'', heq, heq2, ?_, ?_⟩
  · rw [hid2, hid]
  · refine ⟨{ parent with next_ids := parent.next_ids ++ [bi.id] }, ?_, ?_⟩
    · rw [hinf2', alookup_aset_ne _ _ _ _ (Ne.symm h4)]
      exact hlook
    · rw [hid]
      show (parent.next_ids ++ [bi.id]).count bi.id = 1
      rw [List.count_append, List.count_eq_zero.mpr h5]
      simp

/-- Claim C6 witness: a duplicate insert of the scenario-2 block on a fresh
mainnet store. -/
theorem store_same_hash_same_id_no_duplicate_witness :
    ∃ st' bi' st'' bi'',
      store_block_info initMainState candB1 = .ok (st', bi') ∧
      store_block_info st' candB1 = .ok (st'', bi'') ∧
      bi''.id = bi'.id ∧
      ∃ p', alookup st''.infos (BlockInfo.genesis_info .Main).id = some p' ∧
        p'.next_ids.count bi'.id = 1 :=
  store_same_hash_same_id_no_duplicate initMainState st1B1 candB1 biB1 candB1
    (BlockInfo.genesis_info .Main) (by rfl) (by rfl) (by rfl)
    (by decide) (by decide) (by rfl) (by rfl)

/-- Claim C9 counterexample: with `max_blocks = Some 0` the loop still
delivers one record before checking the bound, so the stream is not "exactly
max items" — the spec's reading would deliver none. -/
theorem get_block_infos_max_zero_delivers_one :
    get_block_infos initMainState 0 (some 0) = [BlockInfo.genesis_info .Main] ∧
    spec_get_block_infos initMainState 0 (some 0) = [] := by
  exact ⟨rfl, rfl⟩

/-- Claim C9 as amended: for `max_blocks ≠ Some 0` the stream walks
`prev_id` pointers and terminates exactly when max items are delivered,
when a height-0 record is delivered, or when a record is missing (no
error); `max_blocks = Some 0` behaves like `Some 1`.  On the 101-record
chain, the tip yields 101 records ending at height 0. -/
theorem get_block_infos_matches_spec :
    (∀ (st : ChainStoreState) (db_id : Nat) (max_blocks : Option Nat),
        max_blocks ≠ some 0 →
        get_block_infos st db_id max_blocks = spec_get_block_infos st db_id max_blocks) ∧
    (∀ (st : ChainStoreState) (db_id : Nat),
        get_block_infos st db_id (some 0) = spec_ancestor_walk st.infos db_id 1) ∧
    (get_block_infos chain100State 100 none).length = 101 ∧
    (get_block_infos chain100State 100 none).getLast?.map (fun b => b.height) = some 0 := by
  refine ⟨?_, ?_, ?_, ?_⟩
  · intro st db_id maxb hne
    unfold get_block_infos spec_get_block_infos
    rw [go_eq_walk]
    congr 1
    cases maxb with
    | none =>
      show Nat.max (U64MOD - 1) 1 = U64MOD - 1
      exact max_eq_left (by decide)
    | some k =>
      have hk : k ≠ 0 := fun h => hne (by rw [h])
      show Nat.max k 1 = k
      exact max_eq_left (Nat.one_le_iff_ne_zero.mpr hk)
  · intro st db_id
    unfold get_block_infos
    rw [go_eq_walk]
    rfl
  · rfl
  · rfl

/-- Claim C9 witness: the full walk from the 101-chain's tip agrees with
the spec's walk. -/
theorem get_block_infos_matches_spec_witness :
    get_block_infos chain100State 100 none =
      spec_get_block_infos chain100State 100 none :=
  get_block_infos_matches_spec.1 chain100State 100 none (by decide)

theorem chain_work_elem_round (o : Option (List Nat)) :
    (optBytesElement o).as_bytes = o := by
  cases o <;> rfl

theorem miner_elem_round (o : Option String) :
    (optStrElement o).as_str = o := by
  cases o <;> rfl

theorem as_i64_int (i : Int) : (Element.int i).as_i64 = some i := rfl

theorem as_bytes_bytes (l : List Nat) : (Element.bytes l).as_bytes = some l := rfl

theorem as_str_str (s : String) : (Element.str s).as_str = some s := rfl

theorem as_tuple_tuple (l : List Element) : (Element.tuple l).as_tuple = some l := rfl

theorem decodeU64Exact_round (x : Nat) (h : x < U64MOD) :
    decodeU64Exact (intElementOfU64 x) = some x := by
  unfold decodeU64Exact intElementOfU64
  dsimp only
  rw [if_pos h]

/-- Claim C8: the tuple codec round-trips every `BlockInfo`, `ChainState`,
`next_id` and hash-index value (within the `u64` ranges Rust's types
guarantee). -/
theorem codec_round_trip (b : BlockInfo) (s : ChainState) (n m : Nat)
    (hb : b.u64Bounded = true) (hs : s.u64Bounded = true)
    (hn : n < U64MOD) (hm : m < U64MOD) :
    decode_block_info (encode_block_info b) = some b ∧
    decode_chain_state (encode_chain_state s) = some s ∧
    decode_next_id (encode_next_id n) = some n ∧
    decode_h_index (encode_h_index m) = some m := by
  simp only [BlockInfo.u64Bounded, Bool.and_eq_true, decide_eq_true_eq,
    List.all_eq_true] at hb
  obtain ⟨⟨⟨⟨⟨⟨⟨⟨hid, hht⟩, hpr⟩, hnx⟩, hsz⟩, hnt⟩, hmt⟩, htt⟩, hts⟩ := hb
  simp only [ChainState.u64Bounded, Bool.and_eq_true, decide_eq_true_eq,
    List.all_eq_true] at hs
  obtain ⟨⟨⟨hmwt, hat⟩, hdt⟩, hit⟩ := hs
  refine ⟨?_, ?_, ?_, ?_⟩
  · simp only [encode_block_info, decode_block_info, as_i64_int, as_bytes_bytes,
      as_str_str, as_tuple_tuple, hashToBytes, hashFromBytes, headerToBytes,
      headerFromBytes]
    rw [decodeI64U64List_round b.next_ids hnx]
    dsimp only
    rw [u64_round b.id hid, u64_round b.height hht, u64_round b.prev_id hpr,
      optIntElement_round b.size hsz, optIntElement_round b.num_tx hnt,
      optIntElement_round b.median_time hmt, optIntElement_round b.total_tx htt,
      optIntElement_round b.total_size hts,
      chain_work_elem_round b.chain_work, miner_elem_round b.miner,
      validity_byte_round b.validity]
  · simp only [encode_chain_state, decode_chain_state]
    rw [decodeU64Exact_round s.most_work_tip hmwt]
    simp only [as_tuple_tuple]
    try dsimp only
    rw [decodeI64U64List_coe_round s.active_tips hat,
      decodeI64U64List_coe_round s.dormant_tips hdt,
      decodeI64U64List_coe_round s.invalid_tips hit]
    try dsimp only
  · exact decodeU64Exact_round n hn
  · exact decodeU64Exact_round m hm

/-- Claim C8 witness at the mainnet genesis record, a concrete
`ChainState`, and concrete ids. -/
theorem codec_round_trip_witness :
    decode_block_info (encode_block_info (BlockInfo.genesis_info .Main)) =
      some (BlockInfo.genesis_info .Main) ∧
    decode_chain_state (encode_chain_state
        { most_work_tip := 2, active_tips := [3, 4],
          dormant_tips := [], invalid_tips := [6, 7] }) =
      some { most_work_tip := 2, active_tips := [3, 4],
             dormant_tips := [], invalid_tips := [6, 7] } ∧
    decode_next_id (encode_next_id 1) = some 1 ∧
    decode_h_index (encode_h_index 76265) = some 76265 :=
  codec_round_trip (BlockInfo.genesis_info .Main)
    { most_work_tip := 2, active_tips := [3, 4],
      dormant_tips := [], invalid_tips := [6, 7] } 1 76265
    (by decide) (by decide) (by decide) (by decide)

end Bsvdb
